import Mathlib

/-!
Shallow embedding of the `Mantlememo` contract
(`src/app/contracts/contract.sol`) and proofs of the specification claims.

Modelling choices:
* A principal (`address`) is a `Nat`; string ids are Lean `String`s.
* The `bytes32` key `keccak256(abi.encodePacked(addr, id))` is modelled as
  the pair `(addr, id)` itself: keccak is collision resistant, so distinct
  pairs yield distinct keys and equal pairs equal keys.
* Solidity mappings are total functions with the zero struct as default,
  matching EVM storage semantics.
* Every state-changing function returns `Except Err (ContractState × Nat)`;
  the `Nat` is the amount of currency sent back to the caller during the
  call (refund / unstaked amount / withdrawn earnings, `0` otherwise).
  A `revert` is `.error e`: per EVM semantics the pre-call state is kept,
  which `resState` makes explicit.
* The external value-transfer primitive (`payable(x).call{value: v}("")`)
  can fail when the recipient rejects funds; each operation that performs
  such a transfer takes a `xferOk : Bool` telling whether that call
  succeeds.
* Amounts are `Nat`. (Solidity 0.8 checked `uint256` arithmetic reverts on
  wrap-around; reaching `2^256` wei is unreachable for real balances, so
  the embedding uses unbounded naturals.)
-/

namespace Mantlememo

/-- Principals (wallet addresses). -/
abbrev Address := Nat

/-- The derived lookup key `keccak256(abi.encodePacked(addr, id))`,
modelled as the pair itself. -/
abbrev Key := Address × String

/-- Update a total-function map at one key. -/
def upd {α β : Type} [DecidableEq α] (f : α → β) (k : α) (v : β) : α → β :=
  fun x => if x = k then v else f x

/-! Constants (section 1 of the contract). -/

def MAX_PRICE_PER_QUERY : Nat := 10 ^ 18
def MIN_PRICE_PER_QUERY : Nat := 10 ^ 14
def MAX_STAKE_AMOUNT : Nat := 100 * 10 ^ 18
def MIN_STAKE_AMOUNT : Nat := 10 ^ 14
def MIN_STRING_LENGTH : Nat := 1
def LOCK_PERIOD_SECONDS : Nat := 7 * 24 * 60 * 60

/-- Custom errors of the contract, plus the two `require` revert reasons
(`"Agent already exists"`, `"Capsule already exists"`), which are
distinguished constructors here. -/
inductive Err where
  | emptyString
  | invalidMetadataLength
  | capsuleNotFound
  | invalidPrice
  | priceTooHigh
  | insufficientPayment
  | transferFailed
  | stakeTooHigh
  | insufficientStake
  | stakeLocked
  | unauthorized
  | agentAlreadyExists
  | capsuleAlreadyExists
deriving DecidableEq, Repr

/-! Data structures (section 3 of the contract). Solidity zero values are
the defaults below. -/

structure Agent where
  owner : Address := 0
  agentId : String := ""
  name : String := ""
  displayName : String := ""
  platform : String := ""
  createdAt : Nat := 0
  reputation : Nat := 0
  exists_ : Bool := false
deriving Repr, DecidableEq

structure Capsule where
  creator : Address := 0
  capsuleId : String := ""
  name : String := ""
  description : String := ""
  category : String := ""
  price : Nat := 0
  totalStake : Nat := 0
  createdAt : Nat := 0
  updatedAt : Nat := 0
  earnings : Nat := 0
  exists_ : Bool := false
deriving Repr, DecidableEq

structure Staking where
  stakedAt : Nat := 0
  lockUntil : Nat := 0
  exists_ : Bool := false
deriving Repr, DecidableEq

structure Earnings where
  totalEarnings : Nat := 0
  queryCount : Nat := 0
  lastUpdated : Nat := 0
deriving Repr, DecidableEq

/-! History log entries (section 4 of the contract). -/

structure AgentRegisteredLog where
  owner : Address
  agentId : String
  timestamp : Nat
deriving Repr, DecidableEq

structure CapsuleCreatedLog where
  creator : Address
  capsuleId : String
  timestamp : Nat
deriving Repr, DecidableEq

structure StakedOnCapsuleLog where
  staker : Address
  capsuleId : String
  amount : Nat
  timestamp : Nat
deriving Repr, DecidableEq

structure UnstakedFromCapsuleLog where
  staker : Address
  capsuleId : String
  amount : Nat
  timestamp : Nat
deriving Repr, DecidableEq

structure PriceUpdatedLog where
  capsuleId : String
  newPrice : Nat
  timestamp : Nat
deriving Repr, DecidableEq

structure EarningsWithdrawnLog where
  creator : Address
  amount : Nat
  timestamp : Nat
deriving Repr, DecidableEq

structure CapsuleQueriedLog where
  user : Address
  capsuleId : String
  amountPaid : Nat
  timestamp : Nat
deriving Repr, DecidableEq

/-- Events emitted for frontend listeners (section 6 of the contract). -/
inductive Event where
  | agentRegistered (owner : Address) (agentId : String)
  | capsuleCreated (creator : Address) (capsuleId : String)
  | stakedOnCapsule (staker : Address) (capsuleId : String) (amount : Nat)
  | unstakedFromCapsule (staker : Address) (capsuleId : String) (amount : Nat)
  | priceUpdated (capsuleId : String) (newPrice : Nat)
  | earningsWithdrawn (creator : Address) (amount : Nat)
  | capsuleQueried (user : Address) (capsuleId : String) (amountPaid : Nat)
deriving Repr, DecidableEq

/-- The whole contract storage (section 5 of the contract), together with
the contract's own currency balance and the emitted-event log. -/
structure ContractState where
  agents : Key → Agent
  capsules : Key → Capsule
  earnings : Key → Earnings
  stakes : Key → Address → Staking
  ownerAgents : Address → List String
  ownerCapsules : Address → List String
  agentRegisteredHistory : List AgentRegisteredLog
  capsuleCreatedHistory : List CapsuleCreatedLog
  stakedOnCapsuleHistory : List StakedOnCapsuleLog
  unstakedFromCapsuleHistory : List UnstakedFromCapsuleLog
  priceUpdatedHistory : List PriceUpdatedLog
  earningsWithdrawnHistory : List EarningsWithdrawnLog
  capsuleQueriedHistory : List CapsuleQueriedLog
  events : List Event
  balance : Nat

/-- Freshly deployed contract: every mapping slot holds the zero struct,
all history arrays are empty, the contract holds no funds. -/
def initState : ContractState where
  agents := fun _ => {}
  capsules := fun _ => {}
  earnings := fun _ => {}
  stakes := fun _ _ => {}
  ownerAgents := fun _ => []
  ownerCapsules := fun _ => []
  agentRegisteredHistory := []
  capsuleCreatedHistory := []
  stakedOnCapsuleHistory := []
  unstakedFromCapsuleHistory := []
  priceUpdatedHistory := []
  earningsWithdrawnHistory := []
  capsuleQueriedHistory := []
  events := []
  balance := 0

/-- The result of a state-changing call: on success, the post state and the
amount transferred back to the caller during the call. -/
abbrev CallResult := Except Err (ContractState × Nat)

/-- State observed after a call: the new state on success, the unchanged
pre-call state on revert (EVM all-or-nothing semantics). -/
def resState (s : ContractState) (r : CallResult) : ContractState :=
  match r with
  | .ok p => p.1
  | .error _ => s

/-- Amount of currency the caller received during the call (`0` on
revert). -/
def resPayout (r : CallResult) : Nat :=
  match r with
  | .ok p => p.2
  | .error _ => 0

/-- Byte length of a string, as `bytes(s).length` in Solidity. -/
def byteLen (s : String) : Nat := s.utf8ByteSize

/-! The seven state-changing functions (section 7 of the contract),
translated check by check in source order.  `sender` is `msg.sender`,
`value` is `msg.value`, `ts` is `block.timestamp`. -/

/-- `registerAgent` (contract lines 198-239). -/
def registerAgent (sender : Address) (agentId name displayName platform : String)
    (ts : Nat) (s : ContractState) : CallResult :=
  if byteLen agentId < MIN_STRING_LENGTH then .error .emptyString
  else if byteLen name < MIN_STRING_LENGTH then .error .emptyString
  else if byteLen agentId > 32 then .error .invalidMetadataLength
  else if byteLen name > 128 then .error .invalidMetadataLength
  else
    let agentKey : Key := (sender, agentId)
    if (s.agents agentKey).exists_ then .error .agentAlreadyExists
    else
      .ok ({ s with
              agents := upd s.agents agentKey
                { owner := sender, agentId := agentId, name := name,
                  displayName := displayName, platform := platform,
                  createdAt := ts, reputation := 10000, exists_ := true },
              ownerAgents := upd s.ownerAgents sender (s.ownerAgents sender ++ [agentId]),
              events := s.events ++ [.agentRegistered sender agentId],
              agentRegisteredHistory := s.agentRegisteredHistory ++
                [{ owner := sender, agentId := agentId, timestamp := ts }] },
            0)

/-- `createCapsule` (contract lines 246-284). -/
def createCapsule (sender : Address) (capsuleId name description category : String)
    (price : Nat) (ts : Nat) (s : ContractState) : CallResult :=
  if byteLen capsuleId < MIN_STRING_LENGTH then .error .emptyString
  else if byteLen capsuleId > 32 then .error .invalidMetadataLength
  else if price < MIN_PRICE_PER_QUERY then .error .invalidPrice
  else if price > MAX_PRICE_PER_QUERY then .error .priceTooHigh
  else
    let capsuleKey : Key := (sender, capsuleId)
    if (s.capsules capsuleKey).exists_ then .error .capsuleAlreadyExists
    else
      .ok ({ s with
              capsules := upd s.capsules capsuleKey
                { creator := sender, capsuleId := capsuleId, name := name,
                  description := description, category := category,
                  price := price, totalStake := 0, earnings := 0,
                  createdAt := ts, updatedAt := ts, exists_ := true },
              ownerCapsules := upd s.ownerCapsules sender (s.ownerCapsules sender ++ [capsuleId]),
              events := s.events ++ [.capsuleCreated sender capsuleId],
              capsuleCreatedHistory := s.capsuleCreatedHistory ++
                [{ creator := sender, capsuleId := capsuleId, timestamp := ts }] },
            0)

/-- `stake` (contract lines 291-341).  `value` is the attached deposit
`msg.value`; a payable call adds it to the contract balance. -/
def stake (sender : Address) (capsuleId : String) (value : Nat) (ts : Nat)
    (s : ContractState) : CallResult :=
  if value < MIN_STAKE_AMOUNT then .error .insufficientPayment
  else if value > MAX_STAKE_AMOUNT then .error .stakeTooHigh
  else
    let capsuleKey : Key := (sender, capsuleId)
    let capsule := s.capsules capsuleKey
    if ¬ capsule.exists_ then .error .capsuleNotFound
    else if capsule.creator ≠ sender then .error .unauthorized
    else
      let userStake := s.stakes capsuleKey sender
      let userStake' : Staking :=
        if ¬ userStake.exists_ then
          { stakedAt := ts, lockUntil := ts + LOCK_PERIOD_SECONDS, exists_ := true }
        else
          { userStake with lockUntil := ts + LOCK_PERIOD_SECONDS }
      .ok ({ s with
              capsules := upd s.capsules capsuleKey
                { capsule with totalStake := capsule.totalStake + value, updatedAt := ts },
              stakes := upd s.stakes capsuleKey (upd (s.stakes capsuleKey) sender userStake'),
              balance := s.balance + value,
              events := s.events ++ [.stakedOnCapsule sender capsuleId value],
              stakedOnCapsuleHistory := s.stakedOnCapsuleHistory ++
                [{ staker := sender, capsuleId := capsuleId, amount := value, timestamp := ts }] },
            0)

/-- `unstake` (contract lines 349-385).  `xferOk` is whether the outbound
value transfer to the caller succeeds. -/
def unstake (sender : Address) (capsuleId : String) (amount : Nat) (ts : Nat)
    (xferOk : Bool) (s : ContractState) : CallResult :=
  if amount = 0 then .error .insufficientPayment
  else
    let capsuleKey : Key := (sender, capsuleId)
    let capsule := s.capsules capsuleKey
    if ¬ capsule.exists_ then .error .capsuleNotFound
    else
      let userStake := s.stakes capsuleKey sender
      if ¬ userStake.exists_ ∨ capsule.totalStake < amount then .error .insufficientStake
      else if ts < userStake.lockUntil then .error .stakeLocked
      else if ¬ xferOk then .error .transferFailed
      else
        .ok ({ s with
                capsules := upd s.capsules capsuleKey
                  { capsule with totalStake := capsule.totalStake - amount, updatedAt := ts },
                balance := s.balance - amount,
                events := s.events ++ [.unstakedFromCapsule sender capsuleId amount],
                unstakedFromCapsuleHistory := s.unstakedFromCapsuleHistory ++
                  [{ staker := sender, capsuleId := capsuleId, amount := amount, timestamp := ts }] },
              amount)

/-- `queryCapsule` (contract lines 391-428).  The key is derived from the
`creator` argument, not the caller.  `value` is the attached payment;
`xferOk` is whether the excess-refund transfer succeeds (consulted only
when there is an excess to refund). -/
def queryCapsule (sender : Address) (creator : Address) (capsuleId : String)
    (value : Nat) (ts : Nat) (xferOk : Bool) (s : ContractState) : CallResult :=
  let capsuleKey : Key := (creator, capsuleId)
  let capsule := s.capsules capsuleKey
  if ¬ capsule.exists_ then .error .capsuleNotFound
  else
    let cost := capsule.price
    if value < cost then .error .insufficientPayment
    else
      let excess := value - cost
      if excess > 0 ∧ ¬ xferOk then .error .transferFailed
      else
        .ok ({ s with
                capsules := upd s.capsules capsuleKey
                  { capsule with earnings := capsule.earnings + cost },
                earnings := upd s.earnings capsuleKey
                  { totalEarnings := (s.earnings capsuleKey).totalEarnings + cost,
                    queryCount := (s.earnings capsuleKey).queryCount + 1,
                    lastUpdated := ts },
                balance := s.balance + cost,
                events := s.events ++ [.capsuleQueried sender capsuleId cost],
                capsuleQueriedHistory := s.capsuleQueriedHistory ++
                  [{ user := sender, capsuleId := capsuleId, amountPaid := cost, timestamp := ts }] },
              excess)

/-- `withdrawEarnings` (contract lines 433-459).  The key is derived from
the caller.  `xferOk` is whether the payout transfer succeeds. -/
def withdrawEarnings (sender : Address) (capsuleId : String) (ts : Nat)
    (xferOk : Bool) (s : ContractState) : CallResult :=
  let capsuleKey : Key := (sender, capsuleId)
  let amount := (s.earnings capsuleKey).totalEarnings
  if amount = 0 then .error .insufficientPayment
  else if s.balance < amount then .error .transferFailed
  else if ¬ xferOk then .error .transferFailed
  else
    .ok ({ s with
            earnings := upd s.earnings capsuleKey
              { s.earnings capsuleKey with totalEarnings := 0 },
            capsules := upd s.capsules capsuleKey
              { s.capsules capsuleKey with earnings := 0 },
            balance := s.balance - amount,
            events := s.events ++ [.earningsWithdrawn sender amount],
            earningsWithdrawnHistory := s.earningsWithdrawnHistory ++
              [{ creator := sender, amount := amount, timestamp := ts }] },
          amount)

/-- `updateCapsulePrice` (contract lines 464-483). -/
def updateCapsulePrice (sender : Address) (capsuleId : String) (newPrice : Nat)
    (ts : Nat) (s : ContractState) : CallResult :=
  if newPrice < MIN_PRICE_PER_QUERY then .error .invalidPrice
  else if newPrice > MAX_PRICE_PER_QUERY then .error .priceTooHigh
  else
    let capsuleKey : Key := (sender, capsuleId)
    let capsule := s.capsules capsuleKey
    if ¬ capsule.exists_ then .error .capsuleNotFound
    else if sender ≠ capsule.creator then .error .unauthorized
    else
      .ok ({ s with
              capsules := upd s.capsules capsuleKey
                { capsule with price := newPrice, updatedAt := ts },
              events := s.events ++ [.priceUpdated capsuleId newPrice],
              priceUpdatedHistory := s.priceUpdatedHistory ++
                [{ capsuleId := capsuleId, newPrice := newPrice, timestamp := ts }] },
            0)

/-- One external state-changing call with all its arguments, the ambient
block timestamp, and the outcome of any external value transfer it
performs. -/
inductive Op where
  | register (sender : Address) (agentId name displayName platform : String) (ts : Nat)
  | create (sender : Address) (capsuleId name description category : String) (price ts : Nat)
  | doStake (sender : Address) (capsuleId : String) (value ts : Nat)
  | doUnstake (sender : Address) (capsuleId : String) (amount ts : Nat) (xferOk : Bool)
  | query (sender creator : Address) (capsuleId : String) (value ts : Nat) (xferOk : Bool)
  | withdraw (sender : Address) (capsuleId : String) (ts : Nat) (xferOk : Bool)
  | setPrice (sender : Address) (capsuleId : String) (newPrice ts : Nat)

/-- Dispatch an operation to the corresponding contract function. -/
def applyOp (op : Op) (s : ContractState) : CallResult :=
  match op with
  | .register sender agentId name displayName platform ts =>
      registerAgent sender agentId name displayName platform ts s
  | .create sender capsuleId name description category price ts =>
      createCapsule sender capsuleId name description category price ts s
  | .doStake sender capsuleId value ts => stake sender capsuleId value ts s
  | .doUnstake sender capsuleId amount ts xferOk => unstake sender capsuleId amount ts xferOk s
  | .query sender creator capsuleId value ts xferOk =>
      queryCapsule sender creator capsuleId value ts xferOk s
  | .withdraw sender capsuleId ts xferOk => withdrawEarnings sender capsuleId ts xferOk s
  | .setPrice sender capsuleId newPrice ts => updateCapsulePrice sender capsuleId newPrice ts s

/-- State after executing one operation (unchanged when it reverts). -/
def nextState (s : ContractState) (op : Op) : ContractState :=
  resState s (applyOp op s)

/-- States reachable from a freshly deployed contract. -/
inductive Reachable : ContractState → Prop where
  | init : Reachable initState
  | step {s : ContractState} (op : Op) : Reachable s → Reachable (nextState s op)

/-- `ReachFrom s t`: state `t` arises from `s` by some (possibly empty)
sequence of operations. -/
inductive ReachFrom : ContractState → ContractState → Prop where
  | refl {s : ContractState} : ReachFrom s s
  | step {s t : ContractState} (op : Op) : ReachFrom s t → ReachFrom s (nextState t op)

/-! State invariants used by the claims. -/

/-- Every existing capsule stored at key `(a, i)` was created by `a`:
`createCapsule` derives the key from `msg.sender` and writes
`creator := msg.sender`. -/
def CreatorInv (s : ContractState) : Prop :=
  ∀ (a : Address) (i : String), (s.capsules (a, i)).exists_ = true → (s.capsules (a, i)).creator = a

/-- Every existing agent stored at key `(a, i)` is owned by `a`. -/
def OwnerInv (s : ContractState) : Prop :=
  ∀ (a : Address) (i : String), (s.agents (a, i)).exists_ = true → (s.agents (a, i)).owner = a

/-- `Capsule.earnings` mirrors `Earnings.totalEarnings` at every key. -/
def EarnSync (s : ContractState) : Prop :=
  ∀ k : Key, (s.capsules k).earnings = (s.earnings k).totalEarnings

/-- A key holding no capsule has no pending earnings. -/
def FreshZero (s : ContractState) : Prop :=
  ∀ k : Key, (s.capsules k).exists_ = false → (s.earnings k).totalEarnings = 0

/-- The combined inductive state invariant. -/
def Inv (s : ContractState) : Prop :=
  CreatorInv s ∧ OwnerInv s ∧ EarnSync s ∧ FreshZero s

/-! Concrete run used by the witnesses: principal `0` registers agent
`"ag"`, creates capsule `"cap"` at price `10^14` and timestamp `100`,
stakes `10^14` on it at `100`, and principal `5` queries it at `300`
paying `3 * 10^14`. -/

def wCreate : ContractState := nextState initState (.create 0 "cap" "n" "d" "c" (10 ^ 14) 100)

def wAgent : ContractState := nextState wCreate (.register 0 "ag" "nm" "dn" "pf" 100)

def wStake : ContractState := nextState wAgent (.doStake 0 "cap" (10 ^ 14) 100)

def wQuery : ContractState := nextState wStake (.query 5 0 "cap" (3 * 10 ^ 14) 300 true)

end Mantlememo

namespace Mantlememo

@[simp] theorem upd_self {α β : Type} [DecidableEq α] (f : α → β) (k : α) (v : β) :
    upd f k v k = v := by
  simp [upd]

@[simp] theorem upd_other {α β : Type} [DecidableEq α] (f : α → β) (k : α) (v : β)
    (x : α) (h : x ≠ k) : upd f k v x = f x := by
  simp [upd, h]

theorem stake_ok_fields (s : ContractState) (p : Address) (i : String) (amt ts : Nat)
    (h1 : MIN_STAKE_AMOUNT ≤ amt) (h2 : amt ≤ MAX_STAKE_AMOUNT)
    (hex : (s.capsules (p, i)).exists_ = true)
    (hcr : (s.capsules (p, i)).creator = p) :
    (stake p i amt ts s).isOk = true ∧
    ((resState s (stake p i amt ts s)).stakes (p, i) p).lockUntil = ts + LOCK_PERIOD_SECONDS ∧
    ((resState s (stake p i amt ts s)).stakes (p, i) p).stakedAt
      = (if (s.stakes (p, i) p).exists_ then (s.stakes (p, i) p).stakedAt else ts) ∧
    ((resState s (stake p i amt ts s)).capsules (p, i)).exists_ = true ∧
    ((resState s (stake p i amt ts s)).capsules (p, i)).creator = p ∧
    ((resState s (stake p i amt ts s)).capsules (p, i)).totalStake
      = (s.capsules (p, i)).totalStake + amt := by
  have hn1 : ¬ amt < MIN_STAKE_AMOUNT := Nat.not_lt.mpr h1
  have hn2 : ¬ amt > MAX_STAKE_AMOUNT := Nat.not_lt.mpr h2
  by_cases hst : (s.stakes (p, i) p).exists_ <;>
    simp [stake, hn1, hn2, hex, hcr, hst, resState, Except.isOk, Except.toBool]

theorem resState_ok (s s' : ContractState) (r : Nat) : resState s (.ok (s', r)) = s' := rfl

theorem resState_error (s : ContractState) (e : Err) : resState s (.error e) = s := rfl

theorem inv_init : Inv initState := by
  refine ⟨?_, ?_, ?_, ?_⟩
  · intro a i h
    simp [initState] at h
  · intro a i h
    simp [initState] at h
  · intro k
    simp [initState]
  · intro k _
    simp [initState]

theorem inv_resState_error (s : ContractState) (e : Err) (h : Inv s) :
    Inv (resState s (.error e)) := h

theorem inv_step (op : Op) (s : ContractState) (h : Inv s) : Inv (nextState s op) := by
  obtain ⟨hc, ho, he, hf⟩ := h
  cases op with
  | register sender agentId name displayName platform ts =>
    simp only [nextState, applyOp, registerAgent]
    repeat' split
    any_goals apply inv_resState_error s _ ⟨hc, ho, he, hf⟩
    refine ⟨hc, ?_, he, hf⟩
    intro a i hax
    by_cases hk : ((a : Address), i) = ((sender : Address), agentId)
    · injection hk with hk1 hk2
      subst hk1; subst hk2
      simp [resState_ok, upd]
    · simp [resState_ok, upd, hk] at hax ⊢
      exact ho a i hax
  | create sender capsuleId name description category price ts =>
    simp only [nextState, applyOp, createCapsule]
    repeat' split
    any_goals apply inv_resState_error s _ ⟨hc, ho, he, hf⟩
    rename_i h1 h2 h3 h4 hnex
    have hnex' : (s.capsules (sender, capsuleId)).exists_ = false := by
      simpa using hnex
    refine ⟨?_, ho, ?_, ?_⟩
    · intro a i hax
      by_cases hk : ((a : Address), i) = ((sender : Address), capsuleId)
      · injection hk with hk1 hk2
        subst hk1; subst hk2
        simp [resState_ok, upd]
      · simp [resState_ok, upd, hk] at hax ⊢
        exact hc a i hax
    · intro k
      by_cases hk : k = ((sender : Address), capsuleId)
      · subst hk
        simp [resState_ok, upd, hf _ hnex']
      · simp [resState_ok, upd, hk]
        exact he k
    · intro k hkex
      by_cases hk : k = ((sender : Address), capsuleId)
      · subst hk
        simp [resState_ok, upd] at hkex
      · simp [resState_ok, upd, hk] at hkex ⊢
        exact hf k hkex
  | doStake sender capsuleId value ts =>
    simp only [nextState, applyOp, stake]
    repeat' split
    any_goals apply inv_resState_error s _ ⟨hc, ho, he, hf⟩
    all_goals (
      rename_i h1 h2 hexn hcrn hstk
      have hex : (s.capsules (sender, capsuleId)).exists_ = true := by
        by_contra hx
        exact hexn (by simpa using hx)
      refine ⟨?_, ho, ?_, ?_⟩
      · intro a i hax
        by_cases hk : ((a : Address), i) = ((sender : Address), capsuleId)
        · injection hk with hk1 hk2
          subst hk1; subst hk2
          simp [resState_ok, upd]
          exact hc _ _ hex
        · simp [resState_ok, upd, hk] at hax ⊢
          exact hc a i hax
      · intro k
        by_cases hk : k = ((sender : Address), capsuleId)
        · subst hk
          simp [resState_ok, upd]
          exact he _
        · simp [resState_ok, upd, hk]
          exact he k
      · intro k hkex
        by_cases hk : k = ((sender : Address), capsuleId)
        · subst hk
          simp [resState_ok, upd, hex] at hkex
        · simp [resState_ok, upd, hk] at hkex ⊢
          exact hf k hkex)
  | doUnstake sender capsuleId amount ts xferOk =>
    simp only [nextState, applyOp, unstake]
    repeat' split
    any_goals apply inv_resState_error s _ ⟨hc, ho, he, hf⟩
    rename_i h1 hexn h3 h4 h5
    have hex : (s.capsules (sender, capsuleId)).exists_ = true := by
      by_contra hx
      exact hexn (by simpa using hx)
    refine ⟨?_, ho, ?_, ?_⟩
    · intro a i hax
      by_cases hk : ((a : Address), i) = ((sender : Address), capsuleId)
      · injection hk with hk1 hk2
        subst hk1; subst hk2
        simp [resState_ok, upd]
        exact hc _ _ hex
      · simp [resState_ok, upd, hk] at hax ⊢
        exact hc a i hax
    · intro k
      by_cases hk : k = ((sender : Address), capsuleId)
      · subst hk
        simp [resState_ok, upd]
        exact he _
      · simp [resState_ok, upd, hk]
        exact he k
    · intro k hkex
      by_cases hk : k = ((sender : Address), capsuleId)
      · subst hk
        simp [resState_ok, upd, hex] at hkex
      · simp [resState_ok, upd, hk] at hkex ⊢
        exact hf k hkex
  | query sender creator capsuleId value ts xferOk =>
    simp only [nextState, applyOp, queryCapsule]
    repeat' split
    any_goals apply inv_resState_error s _ ⟨hc, ho, he, hf⟩
    rename_i hexn h2 h3
    have hex : (s.capsules (creator, capsuleId)).exists_ = true := by
      by_contra hx
      exact hexn (by simpa using hx)
    refine ⟨?_, ho, ?_, ?_⟩
    · intro a i hax
      by_cases hk : ((a : Address), i) = ((creator : Address), capsuleId)
      · injection hk with hk1 hk2
        subst hk1; subst hk2
        simp [resState_ok, upd]
        exact hc _ _ hex
      · simp [resState_ok, upd, hk] at hax ⊢
        exact hc a i hax
    · intro k
      by_cases hk : k = ((creator : Address), capsuleId)
      · subst hk
        simp [resState_ok, upd, he _]
      · simp [resState_ok, upd, hk]
        exact he k
    · intro k hkex
      by_cases hk : k = ((creator : Address), capsuleId)
      · subst hk
        simp [resState_ok, upd, hex] at hkex
      · simp [resState_ok, upd, hk] at hkex ⊢
        exact hf k hkex
  | withdraw sender capsuleId ts xferOk =>
    simp only [nextState, applyOp, withdrawEarnings]
    repeat' split
    any_goals apply inv_resState_error s _ ⟨hc, ho, he, hf⟩
    refine ⟨?_, ho, ?_, ?_⟩
    · intro a i hax
      by_cases hk : ((a : Address), i) = ((sender : Address), capsuleId)
      · injection hk with hk1 hk2
        subst hk1; subst hk2
        simp [resState_ok, upd] at hax ⊢
        exact hc _ _ hax
      · simp [resState_ok, upd, hk] at hax ⊢
        exact hc a i hax
    · intro k
      by_cases hk : k = ((sender : Address), capsuleId)
      · subst hk
        simp [resState_ok, upd]
      · simp [resState_ok, upd, hk]
        exact he k
    · intro k hkex
      by_cases hk : k = ((sender : Address), capsuleId)
      · subst hk
        simp [resState_ok, upd]
      · simp [resState_ok, upd, hk] at hkex ⊢
        exact hf k hkex
  | setPrice sender capsuleId newPrice ts =>
    simp only [nextState, applyOp, updateCapsulePrice]
    repeat' split
    any_goals apply inv_resState_error s _ ⟨hc, ho, he, hf⟩
    rename_i h1 h2 hexn hcrn
    have hex : (s.capsules (sender, capsuleId)).exists_ = true := by
      by_contra hx
      exact hexn (by simpa using hx)
    refine ⟨?_, ho, ?_, ?_⟩
    · intro a i hax
      by_cases hk : ((a : Address), i) = ((sender : Address), capsuleId)
      · injection hk with hk1 hk2
        subst hk1; subst hk2
        simp [resState_ok, upd]
        exact hc _ _ hex
      · simp [resState_ok, upd, hk] at hax ⊢
        exact hc a i hax
    · intro k
      by_cases hk : k = ((sender : Address), capsuleId)
      · subst hk
        simp [resState_ok, upd]
        exact he _
      · simp [resState_ok, upd, hk]
        exact he k
    · intro k hkex
      by_cases hk : k = ((sender : Address), capsuleId)
      · subst hk
        simp [resState_ok, upd, hex] at hkex
      · simp [resState_ok, upd, hk] at hkex ⊢
        exact hf k hkex

theorem inv_reachable (s : ContractState) (h : Reachable s) : Inv s := by
  induction h with
  | init => exact inv_init
  | step op _ ih => exact inv_step op _ ih

theorem capsules_exists_error (s : ContractState) (e : Err) (k : Key)
    (h : (s.capsules k).exists_ = true) :
    ((resState s (.error e)).capsules k).exists_ = true := h

/-- No operation ever changes an existing agent record. -/
theorem agents_frame (op : Op) (s : ContractState) (k : Key)
    (h : (s.agents k).exists_ = true) : (nextState s op).agents k = s.agents k := by
  cases op with
  | register sender agentId name displayName platform ts =>
    simp only [nextState, applyOp, registerAgent]
    repeat' split
    any_goals rfl
    rename_i hnex
    by_cases hk : k = ((sender : Address), agentId)
    · subst hk
      exact absurd h (by simpa using hnex)
    · simp [resState_ok, upd, hk]
  | create sender capsuleId name description category price ts =>
    simp only [nextState, applyOp, createCapsule]
    repeat' split
    all_goals rfl
  | doStake sender capsuleId value ts =>
    simp only [nextState, applyOp, stake]
    repeat' split
    all_goals rfl
  | doUnstake sender capsuleId amount ts xferOk =>
    simp only [nextState, applyOp, unstake]
    repeat' split
    all_goals rfl
  | query sender creator capsuleId value ts xferOk =>
    simp only [nextState, applyOp, queryCapsule]
    repeat' split
    all_goals rfl
  | withdraw sender capsuleId ts xferOk =>
    simp only [nextState, applyOp, withdrawEarnings]
    repeat' split
    all_goals rfl
  | setPrice sender capsuleId newPrice ts =>
    simp only [nextState, applyOp, updateCapsulePrice]
    repeat' split
    all_goals rfl

/-- Once a capsule exists at a key, it exists forever. -/
theorem capsules_exists_mono (op : Op) (s : ContractState) (k : Key)
    (h : (s.capsules k).exists_ = true) :
    ((nextState s op).capsules k).exists_ = true := by
  cases op with
  | register sender agentId name displayName platform ts =>
    simp only [nextState, applyOp, registerAgent]
    repeat' split
    all_goals exact h
  | create sender capsuleId name description category price ts =>
    simp only [nextState, applyOp, createCapsule]
    repeat' split
    any_goals apply capsules_exists_error s _ k h
    by_cases hk : k = ((sender : Address), capsuleId)
    · subst hk
      simp [resState_ok, upd]
    · simp [resState_ok, upd, hk]
      exact h
  | doStake sender capsuleId value ts =>
    simp only [nextState, applyOp, stake]
    repeat' split
    any_goals apply capsules_exists_error s _ k h
    all_goals (
      by_cases hk : k = ((sender : Address), capsuleId)
      · subst hk
        simp [resState_ok, upd]
        exact h
      · simp [resState_ok, upd, hk]
        exact h)
  | doUnstake sender capsuleId amount ts xferOk =>
    simp only [nextState, applyOp, unstake]
    repeat' split
    any_goals apply capsules_exists_error s _ k h
    by_cases hk : k = ((sender : Address), capsuleId)
    · subst hk
      simp [resState_ok, upd]
      exact h
    · simp [resState_ok, upd, hk]
      exact h
  | query sender creator capsuleId value ts xferOk =>
    simp only [nextState, applyOp, queryCapsule]
    repeat' split
    any_goals apply capsules_exists_error s _ k h
    by_cases hk : k = ((creator : Address), capsuleId)
    · subst hk
      simp [resState_ok, upd]
      exact h
    · simp [resState_ok, upd, hk]
      exact h
  | withdraw sender capsuleId ts xferOk =>
    simp only [nextState, applyOp, withdrawEarnings]
    repeat' split
    any_goals apply capsules_exists_error s _ k h
    by_cases hk : k = ((sender : Address), capsuleId)
    · subst hk
      simp [resState_ok, upd]
      exact h
    · simp [resState_ok, upd, hk]
      exact h
  | setPrice sender capsuleId newPrice ts =>
    simp only [nextState, applyOp, updateCapsulePrice]
    repeat' split
    any_goals apply capsules_exists_error s _ k h
    by_cases hk : k = ((sender : Address), capsuleId)
    · subst hk
      simp [resState_ok, upd]
      exact h
    · simp [resState_ok, upd, hk]
      exact h

theorem reachFrom_agents_frame (s t : ContractState) (h : ReachFrom s t) (k : Key)
    (hex : (s.agents k).exists_ = true) : t.agents k = s.agents k := by
  induction h with
  | refl => rfl
  | step op _ ih =>
    rw [agents_frame op _ k (by rw [ih]; exact hex)]
    exact ih

theorem reachFrom_capsules_exists (s t : ContractState) (h : ReachFrom s t) (k : Key)
    (hex : (s.capsules k).exists_ = true) : (t.capsules k).exists_ = true := by
  induction h with
  | refl => exact hex
  | step op _ ih => exact capsules_exists_mono op _ k ih

/-- A `registerAgent` call reverts whenever an agent already sits at the
derived key. -/
theorem registerAgent_fails_if_exists (s : ContractState) (sender : Address)
    (agentId name displayName platform : String) (ts : Nat)
    (h : (s.agents ((sender : Address), agentId)).exists_ = true) :
    (registerAgent sender agentId name displayName platform ts s).isOk = false ∧
    resState s (registerAgent sender agentId name displayName platform ts s) = s := by
  simp only [registerAgent]
  repeat' split
  all_goals simp_all [resState_error, Except.isOk, Except.toBool]

/-- A `createCapsule` call reverts whenever a capsule already sits at the
derived key. -/
theorem createCapsule_fails_if_exists (s : ContractState) (sender : Address)
    (capsuleId name description category : String) (price ts : Nat)
    (h : (s.capsules ((sender : Address), capsuleId)).exists_ = true) :
    (createCapsule sender capsuleId name description category price ts s).isOk = false ∧
    resState s (createCapsule sender capsuleId name description category price ts s) = s := by
  simp only [createCapsule]
  repeat' split
  all_goals simp_all [resState_error, Except.isOk, Except.toBool]

/-- Under the creator-key invariant the `Unauthorized` branch of `stake`
can never fire. -/
theorem stake_not_unauthorized (s : ContractState) (hc : CreatorInv s)
    (p : Address) (i : String) (amt ts : Nat) :
    stake p i amt ts s ≠ .error .unauthorized := by
  intro hcon
  simp only [stake] at hcon
  repeat' split at hcon
  · exact absurd (Except.error.inj hcon) (by decide)
  · exact absurd (Except.error.inj hcon) (by decide)
  · exact absurd (Except.error.inj hcon) (by decide)
  · rename_i hexn hcr
    have hex : (s.capsules (p, i)).exists_ = true := by
      by_contra hx
      exact hexn (by simpa using hx)
    exact hcr (hc p i hex)
  · exact Except.noConfusion hcon
  · exact Except.noConfusion hcon

/-- Under the creator-key invariant the `Unauthorized` branch of
`updateCapsulePrice` can never fire. -/
theorem updateCapsulePrice_not_unauthorized (s : ContractState) (hc : CreatorInv s)
    (p : Address) (i : String) (np ts : Nat) :
    updateCapsulePrice p i np ts s ≠ .error .unauthorized := by
  intro hcon
  simp only [updateCapsulePrice] at hcon
  repeat' split at hcon
  · exact absurd (Except.error.inj hcon) (by decide)
  · exact absurd (Except.error.inj hcon) (by decide)
  · exact absurd (Except.error.inj hcon) (by decide)
  · rename_i hexn hcr
    have hex : (s.capsules (p, i)).exists_ = true := by
      by_contra hx
      exact hexn (by simpa using hx)
    exact hcr ((hc p i hex).symm)
  · exact Except.noConfusion hcon

/-- A stake call by `p` on an id with no capsule at `p`'s own key reverts
with `CapsuleNotFound` (given the deposit is within bounds). -/
theorem stake_capsuleNotFound (s : ContractState) (p : Address) (i : String)
    (amt ts : Nat) (h1 : MIN_STAKE_AMOUNT ≤ amt) (h2 : amt ≤ MAX_STAKE_AMOUNT)
    (hnex : (s.capsules (p, i)).exists_ = false) :
    stake p i amt ts s = .error .capsuleNotFound := by
  have hn1 : ¬ amt < MIN_STAKE_AMOUNT := Nat.not_lt.mpr h1
  have hn2 : ¬ amt > MAX_STAKE_AMOUNT := Nat.not_lt.mpr h2
  simp [stake, hn1, hn2, hnex]

/-- A stake call by `p` never touches a capsule stored under a different
principal's key. -/
theorem stake_other_capsule_frame (s : ContractState) (p : Address) (i : String)
    (amt ts : Nat) (c : Address) (hne : c ≠ p) :
    (nextState s (.doStake p i amt ts)).capsules ((c : Address), i) = s.capsules (c, i) := by
  have hk : ((c : Address), i) ≠ ((p : Address), i) := by
    simp [hne]
  simp only [nextState, applyOp, stake]
  repeat' split
  any_goals rfl
  all_goals simp [resState_ok, upd, hk]

/-! The specification claims. -/

/-- C1: for a query on an existing capsule with price P and payment V, if
V ≥ P (and the excess-refund transfer is accepted) the call succeeds,
`Earnings.totalEarnings` and `Capsule.earnings` each grow by exactly P,
`queryCount` grows by exactly 1, the caller is refunded exactly V − P, and
the contract retains exactly P; if V < P the call fails with
`InsufficientPayment` and the state, earnings included, is unchanged. -/
theorem C1_queryCapsule_settlement (s : ContractState) (u c : Address) (i : String)
    (V ts : Nat) (hex : (s.capsules (c, i)).exists_ = true) :
    ((s.capsules (c, i)).price ≤ V →
      (queryCapsule u c i V ts true s).isOk = true ∧
      resPayout (queryCapsule u c i V ts true s) = V - (s.capsules (c, i)).price ∧
      ((resState s (queryCapsule u c i V ts true s)).earnings (c, i)).totalEarnings
        = (s.earnings (c, i)).totalEarnings + (s.capsules (c, i)).price ∧
      ((resState s (queryCapsule u c i V ts true s)).capsules (c, i)).earnings
        = (s.capsules (c, i)).earnings + (s.capsules (c, i)).price ∧
      ((resState s (queryCapsule u c i V ts true s)).earnings (c, i)).queryCount
        = (s.earnings (c, i)).queryCount + 1 ∧
      (resState s (queryCapsule u c i V ts true s)).balance
        = s.balance + (s.capsules (c, i)).price) ∧
    (∀ xferOk, V < (s.capsules (c, i)).price →
      queryCapsule u c i V ts xferOk s = .error .insufficientPayment ∧
      resState s (queryCapsule u c i V ts xferOk s) = s) := by
  constructor
  · intro hge
    have hnl : ¬ V < (s.capsules (c, i)).price := Nat.not_lt.mpr hge
    simp [queryCapsule, hex, hnl, resState, resPayout, Except.isOk, Except.toBool]
  · intro xo hlt
    simp [queryCapsule, hex, hlt, resState]

theorem C1_queryCapsule_settlement_witness :
    (wCreate.capsules (0, "cap")).exists_ = true ∧
    (wCreate.capsules (0, "cap")).price ≤ 3 * 10 ^ 14 ∧
    (queryCapsule 5 0 "cap" (3 * 10 ^ 14) 300 true wCreate).isOk = true ∧
    resPayout (queryCapsule 5 0 "cap" (3 * 10 ^ 14) 300 true wCreate)
      = 3 * 10 ^ 14 - (wCreate.capsules (0, "cap")).price ∧
    ((resState wCreate (queryCapsule 5 0 "cap" (3 * 10 ^ 14) 300 true wCreate)).earnings
        (0, "cap")).totalEarnings
      = (wCreate.earnings (0, "cap")).totalEarnings + (wCreate.capsules (0, "cap")).price := by
  have h := C1_queryCapsule_settlement wCreate 5 0 "cap" (3 * 10 ^ 14) 300 (by decide)
  exact ⟨by decide, by decide, (h.1 (by decide)).1, (h.1 (by decide)).2.1,
    (h.1 (by decide)).2.2.1⟩

/-- C2: when `totalEarnings > 0` (and the contract can cover it), a
withdrawal with an accepted transfer pays the caller exactly the pre-call
`totalEarnings`, zeroes both `Earnings.totalEarnings` and
`Capsule.earnings`, an immediately following second withdrawal fails with
`InsufficientPayment`, and a rejected transfer aborts the whole operation,
zeroing included (the post-call state equals the pre-call state). -/
theorem C2_withdrawEarnings_pays_once (s : ContractState) (p : Address) (i : String)
    (ts : Nat) (hpos : 0 < (s.earnings (p, i)).totalEarnings)
    (hbal : (s.earnings (p, i)).totalEarnings ≤ s.balance) :
    (withdrawEarnings p i ts true s).isOk = true ∧
    resPayout (withdrawEarnings p i ts true s) = (s.earnings (p, i)).totalEarnings ∧
    ((resState s (withdrawEarnings p i ts true s)).earnings (p, i)).totalEarnings = 0 ∧
    ((resState s (withdrawEarnings p i ts true s)).capsules (p, i)).earnings = 0 ∧
    (∀ ts' xo, withdrawEarnings p i ts' xo (resState s (withdrawEarnings p i ts true s))
      = .error .insufficientPayment) ∧
    (withdrawEarnings p i ts false s = .error .transferFailed ∧
      resState s (withdrawEarnings p i ts false s) = s) := by
  have hne : ¬ (s.earnings (p, i)).totalEarnings = 0 := by omega
  have hnb : ¬ s.balance < (s.earnings (p, i)).totalEarnings := Nat.not_lt.mpr hbal
  simp [withdrawEarnings, hne, hnb, resState, resPayout, Except.isOk, Except.toBool]

theorem C2_withdrawEarnings_pays_once_witness :
    0 < (wQuery.earnings (0, "cap")).totalEarnings ∧
    (wQuery.earnings (0, "cap")).totalEarnings ≤ wQuery.balance ∧
    (withdrawEarnings 0 "cap" 400 true wQuery).isOk = true ∧
    resPayout (withdrawEarnings 0 "cap" 400 true wQuery)
      = (wQuery.earnings (0, "cap")).totalEarnings ∧
    (∀ ts' xo, withdrawEarnings 0 "cap" ts' xo
        (resState wQuery (withdrawEarnings 0 "cap" 400 true wQuery))
      = .error .insufficientPayment) := by
  have h := C2_withdrawEarnings_pays_once wQuery 0 "cap" 400 (by decide) (by decide)
  exact ⟨by decide, by decide, h.1, h.2.1, h.2.2.2.2.1⟩

/-- C3: any operation that returns a failure leaves the entire state —
maps, counters, owner lists, histories, event log, balance — identical to
its pre-call value and pays the caller nothing; this includes failures
(such as `TransferFailed`) raised after bookkeeping was computed, because
a revert discards the whole pending state. -/
theorem C3_failed_op_is_noop (op : Op) (s : ContractState) (e : Err)
    (h : applyOp op s = .error e) :
    nextState s op = s ∧
    (nextState s op).agentRegisteredHistory = s.agentRegisteredHistory ∧
    (nextState s op).capsuleCreatedHistory = s.capsuleCreatedHistory ∧
    (nextState s op).stakedOnCapsuleHistory = s.stakedOnCapsuleHistory ∧
    (nextState s op).unstakedFromCapsuleHistory = s.unstakedFromCapsuleHistory ∧
    (nextState s op).priceUpdatedHistory = s.priceUpdatedHistory ∧
    (nextState s op).earningsWithdrawnHistory = s.earningsWithdrawnHistory ∧
    (nextState s op).capsuleQueriedHistory = s.capsuleQueriedHistory ∧
    (nextState s op).events = s.events ∧
    resPayout (applyOp op s) = 0 := by
  simp [nextState, resState, resPayout, h]

theorem C3_failed_op_is_noop_witness :
    applyOp (.register 0 "" "n" "d" "p" 0) initState = .error .emptyString ∧
    nextState initState (.register 0 "" "n" "d" "p" 0) = initState := by
  refine ⟨rfl, (C3_failed_op_is_noop (.register 0 "" "n" "d" "p" 0) initState .emptyString rfl).1⟩

/-- C4 (counterexample): principal `0` created capsule `"cap"`, principal
`1` is not its creator, and `1`'s in-bounds stake call on id `"cap"` does
not fail with `Unauthorized` — it fails with `CapsuleNotFound`, because
the lookup key is derived from the caller. -/
theorem C4_counterexample_nonCreator_stake :
    (wCreate.capsules (0, "cap")).exists_ = true ∧
    (wCreate.capsules (0, "cap")).creator ≠ 1 ∧
    MIN_STAKE_AMOUNT ≤ 10 ^ 14 ∧ (10 ^ 14 : Nat) ≤ MAX_STAKE_AMOUNT ∧
    stake 1 "cap" (10 ^ 14) 200 wCreate ≠ .error .unauthorized := by
  refine ⟨by decide, by decide, by decide, by decide, ?_⟩
  intro hcon
  have hnf : stake 1 "cap" (10 ^ 14) 200 wCreate = .error .capsuleNotFound := by rfl
  rw [hnf] at hcon
  exact absurd (Except.error.inj hcon) (by decide)

/-- C4 (amended): in any reachable state, a stake call by a principal `p`
that is not the creator of an existing capsule `(c, i)` never fails with
`Unauthorized` and never touches that capsule; when `p` owns no capsule of
the same id, an in-bounds call fails with `CapsuleNotFound` instead. -/
theorem C4_amended_nonCreator_stake (s : ContractState) (hr : Reachable s)
    (c p : Address) (i : String)
    (_hex : (s.capsules ((c : Address), i)).exists_ = true) (hne : c ≠ p) :
    (∀ amt ts, stake p i amt ts s ≠ .error .unauthorized) ∧
    (∀ amt ts, (nextState s (.doStake p i amt ts)).capsules ((c : Address), i)
      = s.capsules (c, i)) ∧
    (∀ amt ts, MIN_STAKE_AMOUNT ≤ amt → amt ≤ MAX_STAKE_AMOUNT →
      (s.capsules ((p : Address), i)).exists_ = false →
      stake p i amt ts s = .error .capsuleNotFound) := by
  have hc := (inv_reachable s hr).1
  exact ⟨fun amt ts => stake_not_unauthorized s hc p i amt ts,
    fun amt ts => stake_other_capsule_frame s p i amt ts c hne,
    fun amt ts h1 h2 hnex => stake_capsuleNotFound s p i amt ts h1 h2 hnex⟩

theorem C4_amended_nonCreator_stake_witness :
    (wCreate.capsules (0, "cap")).exists_ = true ∧
    (0 : Address) ≠ 1 ∧
    stake 1 "cap" (10 ^ 14) 200 wCreate ≠ .error .unauthorized ∧
    stake 1 "cap" (10 ^ 14) 200 wCreate = .error .capsuleNotFound := by
  have h := C4_amended_nonCreator_stake wCreate
    (Reachable.step (.create 0 "cap" "n" "d" "c" (10 ^ 14) 100) Reachable.init)
    0 1 "cap" (by decide) (by decide)
  exact ⟨by decide, by decide, h.1 (10 ^ 14) 200,
    h.2.2 (10 ^ 14) 200 (by decide) (by decide) (by decide)⟩

/-- C5: every successful deposit (first or top-up) executed at timestamp
`ts` leaves the stake record with `lockUntil = ts + 604800`; in
particular a second deposit at `ts'` resets the lock to `ts' + 604800`. -/
theorem C5_stake_resets_lock (s : ContractState) (p : Address) (i : String) (amt ts : Nat)
    (h1 : MIN_STAKE_AMOUNT ≤ amt) (h2 : amt ≤ MAX_STAKE_AMOUNT)
    (hex : (s.capsules ((p : Address), i)).exists_ = true)
    (hcr : (s.capsules ((p : Address), i)).creator = p) :
    (stake p i amt ts s).isOk = true ∧
    ((resState s (stake p i amt ts s)).stakes (p, i) p).lockUntil = ts + LOCK_PERIOD_SECONDS ∧
    (∀ amt' ts', MIN_STAKE_AMOUNT ≤ amt' → amt' ≤ MAX_STAKE_AMOUNT →
      ((resState (resState s (stake p i amt ts s))
          (stake p i amt' ts' (resState s (stake p i amt ts s)))).stakes (p, i) p).lockUntil
        = ts' + LOCK_PERIOD_SECONDS) := by
  obtain ⟨hok, hlock, _, hex', hcr', _⟩ := stake_ok_fields s p i amt ts h1 h2 hex hcr
  exact ⟨hok, hlock, fun amt' ts' h1' h2' =>
    (stake_ok_fields _ p i amt' ts' h1' h2' hex' hcr').2.1⟩

theorem C5_stake_resets_lock_witness :
    MIN_STAKE_AMOUNT ≤ 10 ^ 14 ∧ (10 ^ 14 : Nat) ≤ MAX_STAKE_AMOUNT ∧
    (wCreate.capsules (0, "cap")).exists_ = true ∧
    (wCreate.capsules (0, "cap")).creator = 0 ∧
    (stake 0 "cap" (10 ^ 14) 100 wCreate).isOk = true ∧
    ((resState wCreate (stake 0 "cap" (10 ^ 14) 100 wCreate)).stakes (0, "cap") 0).lockUntil
      = 100 + LOCK_PERIOD_SECONDS ∧
    ((resState (resState wCreate (stake 0 "cap" (10 ^ 14) 100 wCreate))
        (stake 0 "cap" (10 ^ 14) 200
          (resState wCreate (stake 0 "cap" (10 ^ 14) 100 wCreate)))).stakes (0, "cap") 0).lockUntil
      = 200 + LOCK_PERIOD_SECONDS := by
  have h := C5_stake_resets_lock wCreate 0 "cap" (10 ^ 14) 100
    (by decide) (by decide) (by decide) (by decide)
  exact ⟨by decide, by decide, by decide, by decide, h.1, h.2.1,
    h.2.2 (10 ^ 14) 200 (by decide) (by decide)⟩

/-- C6: with an existing stake and `0 < amount ≤ totalStake`, an unstake
before `lockUntil` fails with `StakeLocked`; at or after `lockUntil` (with
the transfer accepted) it succeeds, pays out exactly `amount`, reduces
`totalStake` by exactly `amount`, sets `updatedAt`, and leaves the stake
record — `lockUntil` and `stakedAt` included — entirely unchanged. -/
theorem C6_unstake_gating (s : ContractState) (p : Address) (i : String) (amt ts : Nat)
    (hst : (s.stakes (p, i) p).exists_ = true)
    (hex : (s.capsules ((p : Address), i)).exists_ = true)
    (hpos : 0 < amt) (hle : amt ≤ (s.capsules (p, i)).totalStake) :
    (ts < (s.stakes (p, i) p).lockUntil →
      ∀ xo, unstake p i amt ts xo s = .error .stakeLocked) ∧
    ((s.stakes (p, i) p).lockUntil ≤ ts →
      (unstake p i amt ts true s).isOk = true ∧
      resPayout (unstake p i amt ts true s) = amt ∧
      ((resState s (unstake p i amt ts true s)).capsules (p, i)).totalStake
        = (s.capsules (p, i)).totalStake - amt ∧
      ((resState s (unstake p i amt ts true s)).capsules (p, i)).updatedAt = ts ∧
      (resState s (unstake p i amt ts true s)).stakes (p, i) p = s.stakes (p, i) p) := by
  have hne : ¬ amt = 0 := by omega
  constructor
  · intro hlock xo
    simp [unstake, hne, hex, hst, Nat.not_lt.mpr hle, hlock, resState]
  · intro hunlock
    have hnl : ¬ ts < (s.stakes (p, i) p).lockUntil := Nat.not_lt.mpr hunlock
    simp [unstake, hne, hex, hst, Nat.not_lt.mpr hle, hnl, resState, resPayout,
      Except.isOk, Except.toBool]

theorem C6_unstake_gating_witness :
    (wStake.stakes (0, "cap") 0).exists_ = true ∧
    (wStake.capsules (0, "cap")).exists_ = true ∧
    (0 : Nat) < 10 ^ 13 ∧ (10 ^ 13 : Nat) ≤ (wStake.capsules (0, "cap")).totalStake ∧
    unstake 0 "cap" (10 ^ 13) 200 true wStake = .error .stakeLocked ∧
    (unstake 0 "cap" (10 ^ 13) 800000 true wStake).isOk = true ∧
    resPayout (unstake 0 "cap" (10 ^ 13) 800000 true wStake) = 10 ^ 13 ∧
    (resState wStake (unstake 0 "cap" (10 ^ 13) 800000 true wStake)).stakes (0, "cap") 0
      = wStake.stakes (0, "cap") 0 := by
  have hA := C6_unstake_gating wStake 0 "cap" (10 ^ 13) 200
    (by decide) (by decide) (by decide) (by decide)
  have hB := C6_unstake_gating wStake 0 "cap" (10 ^ 13) 800000
    (by decide) (by decide) (by decide) (by decide)
  exact ⟨by decide, by decide, by decide, by decide, hA.1 (by decide) true,
    (hB.2 (by decide)).1, (hB.2 (by decide)).2.1, (hB.2 (by decide)).2.2.2.2⟩

/-- C7: once an agent (respectively capsule) exists at the key derived
from `(owner, id)`, it still exists after any sequence of operations — the
agent record is even bit-identical — and a repeated `registerAgent`
(respectively `createCapsule`) with the same `(owner, id)` always fails
and leaves the state unchanged. -/
theorem C7_register_create_unique (s t : ContractState) (h : ReachFrom s t) :
    (∀ (p : Address) (i : String), (s.agents ((p : Address), i)).exists_ = true →
      t.agents ((p : Address), i) = s.agents (p, i) ∧
      ∀ (n d pl : String) (ts : Nat),
        (registerAgent p i n d pl ts t).isOk = false ∧
        resState t (registerAgent p i n d pl ts t) = t) ∧
    (∀ (p : Address) (i : String), (s.capsules ((p : Address), i)).exists_ = true →
      (t.capsules ((p : Address), i)).exists_ = true ∧
      ∀ (n d c : String) (pr ts : Nat),
        (createCapsule p i n d c pr ts t).isOk = false ∧
        resState t (createCapsule p i n d c pr ts t) = t) := by
  constructor
  · intro p i hex
    have hfr := reachFrom_agents_frame s t h (p, i) hex
    refine ⟨hfr, fun n d pl ts => registerAgent_fails_if_exists t p i n d pl ts ?_⟩
    rw [hfr]
    exact hex
  · intro p i hex
    have hct := reachFrom_capsules_exists s t h (p, i) hex
    exact ⟨hct, fun n d c pr ts => createCapsule_fails_if_exists t p i n d c pr ts hct⟩

theorem C7_register_create_unique_witness :
    (wAgent.agents (0, "ag")).exists_ = true ∧
    (wAgent.capsules (0, "cap")).exists_ = true ∧
    (registerAgent 0 "ag" "x" "y" "z" 500 wAgent).isOk = false ∧
    (createCapsule 0 "cap" "x" "y" "z" (10 ^ 14) 500 wAgent).isOk = false := by
  have h := C7_register_create_unique wAgent wAgent ReachFrom.refl
  exact ⟨by decide, by decide, ((h.1 0 "ag" (by decide)).2 "x" "y" "z" 500).1,
    ((h.2 0 "cap" (by decide)).2 "x" "y" "z" (10 ^ 14) 500).1⟩

/-- C8: in every reachable state, `Capsule.earnings` equals
`Earnings.totalEarnings` at every key. -/
theorem C8_earnings_lockstep (s : ContractState) (h : Reachable s) :
    ∀ k : Key, (s.capsules k).earnings = (s.earnings k).totalEarnings :=
  fun k => (inv_reachable s h).2.2.1 k

theorem C8_earnings_lockstep_witness :
    (wQuery.capsules (0, "cap")).earnings = (wQuery.earnings (0, "cap")).totalEarnings :=
  C8_earnings_lockstep wQuery
    (Reachable.step (.query 5 0 "cap" (3 * 10 ^ 14) 300 true)
      (Reachable.step (.doStake 0 "cap" (10 ^ 14) 100)
        (Reachable.step (.register 0 "ag" "nm" "dn" "pf" 100)
          (Reachable.step (.create 0 "cap" "n" "d" "c" (10 ^ 14) 100)
            Reachable.init))))
    (0, "cap")

/-- C9: the code keeps `stakedAt` at the first-deposit timestamp on a
top-up — here a successful second deposit at timestamp `200` leaves
`stakedAt = 100` while resetting `lockUntil` — although the struct's own
comment and the spec call `stakedAt` the timestamp of the last deposit. -/
theorem C9_stakedAt_stale_on_topup :
    (wStake.stakes (0, "cap") 0).exists_ = true ∧
    (wStake.stakes (0, "cap") 0).stakedAt = 100 ∧
    (applyOp (.doStake 0 "cap" (10 ^ 14) 200) wStake).isOk = true ∧
    ((nextState wStake (.doStake 0 "cap" (10 ^ 14) 200)).stakes (0, "cap") 0).stakedAt = 100 ∧
    ((nextState wStake (.doStake 0 "cap" (10 ^ 14) 200)).stakes (0, "cap") 0).stakedAt ≠ 200 ∧
    ((nextState wStake (.doStake 0 "cap" (10 ^ 14) 200)).stakes (0, "cap") 0).lockUntil
      = 200 + LOCK_PERIOD_SECONDS := by
  refine ⟨by decide, by decide, by decide, by decide, by decide, by decide⟩

/-- C10: in every reachable state, a capsule stored at key `(p, s)` has
creator `p` and an agent stored there has owner `p`; consequently the
`Unauthorized` branches of `stake` and `updateCapsulePrice` — whose lookup
keys are derived from the caller — are unreachable, and a non-creator's
in-bounds stake call on an id it does not own fails with
`CapsuleNotFound`. -/
theorem C10_caller_key_authorization (s : ContractState) (h : Reachable s) :
    (∀ (a : Address) (i : String), (s.capsules (a, i)).exists_ = true →
      (s.capsules (a, i)).creator = a) ∧
    (∀ (a : Address) (i : String), (s.agents (a, i)).exists_ = true →
      (s.agents (a, i)).owner = a) ∧
    (∀ (p : Address) (i : String) (amt ts : Nat),
      stake p i amt ts s ≠ .error .unauthorized) ∧
    (∀ (p : Address) (i : String) (np ts : Nat),
      updateCapsulePrice p i np ts s ≠ .error .unauthorized) ∧
    (∀ (p : Address) (i : String) (amt ts : Nat),
      MIN_STAKE_AMOUNT ≤ amt → amt ≤ MAX_STAKE_AMOUNT →
      (s.capsules ((p : Address), i)).exists_ = false →
      stake p i amt ts s = .error .capsuleNotFound) := by
  obtain ⟨hc, ho, _, _⟩ := inv_reachable s h
  exact ⟨hc, ho,
    fun p i amt ts => stake_not_unauthorized s hc p i amt ts,
    fun p i np ts => updateCapsulePrice_not_unauthorized s hc p i np ts,
    fun p i amt ts h1 h2 hnex => stake_capsuleNotFound s p i amt ts h1 h2 hnex⟩

theorem C10_caller_key_authorization_witness :
    (wCreate.capsules (0, "cap")).exists_ = true ∧
    (wCreate.capsules (0, "cap")).creator = 0 ∧
    stake 1 "cap" (10 ^ 14) 200 wCreate ≠ .error .unauthorized ∧
    updateCapsulePrice 1 "cap" (10 ^ 14) 200 wCreate ≠ .error .unauthorized := by
  have h := C10_caller_key_authorization wCreate
    (Reachable.step (.create 0 "cap" "n" "d" "c" (10 ^ 14) 100) Reachable.init)
  exact ⟨by decide, h.1 0 "cap" (by decide), h.2.2.1 1 "cap" (10 ^ 14) 200,
    h.2.2.2.1 1 "cap" (10 ^ 14) 200⟩

end Mantlememo
